import Mathlib

/-!
A shallow embedding of `ecco_access/ecco_s3_retrieve.py`.

The embedding covers the CMR catalog pagination loop of `get_granules`, the
single-day reduction, the snapshot post-filter of `ecco_podaac_s3_query`, the
download helpers (`download_file`, `download_files_concurrently`,
`download_files_s3_wrapper`), the caller-facing routines
(`ecco_podaac_s3_open`, `ecco_podaac_s3_get`) and the disk-aware dispatcher
(`ecco_podaac_s3_get_diskaware`), including its free-disk-space probe loop.

External effects are made explicit: the CMR catalog is a function from the
temporal lower bound (a day number) to a response page, the local filesystem is
a record of existing directories and files, object-store transfers are state
updates, and timestamps are integer nanoseconds since the epoch (the value
carried by `numpy.datetime64[ns]`).  Raised Python exceptions are `.error`
outcomes of `Except`.  Loops whose iteration count depends on external data
take a fuel argument; exhausted fuel is distinguished from every behaviour of
the Python code.
-/

/- ### String helpers: Python `in`, `os.path.basename`, `os.path.join`, `os.path.split` -/

/-- Character-list test that the first list is an initial segment of the second. -/
def startsWithL : List Char → List Char → Bool
  | [], _ => true
  | _ :: _, [] => false
  | a :: as, b :: bs => a == b && startsWithL as bs

/-- Character-list test that `needle` occurs contiguously in the given list. -/
def hasSubL (needle : List Char) : List Char → Bool
  | [] => needle.isEmpty
  | c :: cs => startsWithL needle (c :: cs) || hasSubL needle cs

/-- Models the Python substring test `needle in hay`. -/
def strContains (hay needle : String) : Bool :=
  hasSubL needle.toList hay.toList

/-- Models `os.path.basename`: everything after the last slash. -/
def basenameStr (s : String) : String :=
  String.mk ((s.toList.reverse.takeWhile (fun c => c != '/')).reverse)

/-- Models `os.path.join(a, b)` (POSIX semantics): an absolute `b` replaces
`a`; otherwise a separator is inserted unless `a` is empty or ends in one. -/
def joinP (a b : String) : String :=
  if startsWithL ['/'] b.toList then b
  else if a = "" || (a.toList.getLast? == some '/') then a ++ b
  else a ++ "/" ++ b

/-- Head component of `os.path.split`: the part up to the last slash, with
trailing slashes stripped unless the head consists only of slashes. -/
def splitHeadL (l : List Char) : List Char :=
  let tailLen := (l.reverse.takeWhile (fun c => c != '/')).length
  let head := (l.reverse.drop tailLen).reverse
  if head.isEmpty then head
  else if head.all (fun c => c == '/') then head
  else (head.reverse.dropWhile (fun c => c == '/')).reverse

/-- Models `os.path.join(*os.path.split(q)[:-1])`, the parent-directory step of
the disk-space probe loop.  `os.path.split` never raises on a string and
`os.path.join` of the single head component returns it unchanged, so this step
is total. -/
def splitHeadStr (s : String) : String :=
  String.mk (splitHeadL s.toList)

/- ### The snapshot-date regular expression of `ecco_podaac_s3_query` -/

/-- Whether the character list begins with a match of the Python pattern
`_[0-9]{4}-[0-9]{2}-[0-9]{2}`. -/
def dateMatchAt : List Char → Bool
  | '_' :: y1 :: y2 :: y3 :: y4 :: '-' :: m1 :: m2 :: '-' :: d1 :: d2 :: _ =>
      y1.isDigit && y2.isDigit && y3.isDigit && y4.isDigit &&
      m1.isDigit && m2.isDigit && d1.isDigit && d2.isDigit
  | _ => false

/-- Leftmost match of `_[0-9]{4}-[0-9]{2}-[0-9]{2}` (11 characters), as returned
by `re.findall(...)[0]`. -/
def findDateL : List Char → Option (List Char)
  | [] => none
  | c :: cs => if dateMatchAt (c :: cs) then some ((c :: cs).take 11) else findDateL cs

/-- The day-of-month digits of the embedded date:
`re.findall("_[0-9]{4}-[0-9]{2}-[0-9]{2}", s)[0][1:][8:]`.  `none` models the
`IndexError` raised when no date occurs in the reference. -/
def extractDayStr (s : String) : Option String :=
  (findDateL s.toList).map (fun m => String.mk (m.drop 9))

/- ### The CMR catalog model and `get_granules` -/

/-- One element of a granule entry's `links` list. -/
structure SLink where
  title : String
  href : String

/-- One element of `response['feed']['entry']`: timestamps in integer
nanoseconds since the epoch, plus the access links. -/
structure Granule where
  time_start : Int
  time_end : Int
  links : List SLink

/-- A CMR response: either a `feed` with an entry list, or an `errors` payload. -/
inductive CMRResponse where
  | feed (entries : List Granule)
  | errorsResp (msg : String)

/-- The inner loop over `curr_entry['links']`: the first link whose title
contains `direct download access via S3` contributes its `href` (the `break`). -/
def firstDirectLink : List SLink → Option String
  | [] => none
  | l :: rest =>
      if strContains l.title "direct download access via S3" then some l.href
      else firstDirectLink rest

/-- The direct-storage links contributed by an entry list, one per entry that
has a matching link. -/
def linksOf (entries : List Granule) : List String :=
  entries.filterMap (fun g => firstDirectLink g.links)

/-- Nanoseconds per day. -/
def nsPerDay : Int := 86400000000000

/-- `np.datetime64(t, 'D')`: truncation of a nanosecond timestamp to days
(floor division, as numpy truncates toward minus infinity). -/
def dayFloor (t : Int) : Int := Int.fdiv t nsPerDay

/-- The pagination bound update: `np.datetime64(time_end, 'D') + np.timedelta64(1, 'D')`,
one day past the last entry's end timestamp, in days. -/
def advanceBound (time_end : Int) : Int := dayFloor time_end + 1

/-- The `while completed_query == False` pagination loop of `get_granules`.
The catalog is `srv`, a function from the temporal lower bound (a day number,
the first ten characters of `params['temporal']`) to the response page.
Accumulates the `time_start` array and `s3_files_list` exactly as the Python
loop does; a page of fewer than 2000 entries completes the query, a full page
advances the bound via `advanceBound` and queries again. -/
def getGranulesLoop (srv : Int → CMRResponse) :
    Nat → Int → List Int → List String → Except String (List Int × List String)
  | 0, _, _, _ => .error "model fuel exhausted"
  | fuel + 1, bound, time_start, s3_files_list =>
      match srv bound with
      | .errorsResp m => .error m
      | .feed entries =>
          let time_start1 := time_start ++ entries.map (fun g => g.time_start)
          let files1 := s3_files_list ++ linksOf entries
          if entries.length < 2000 then .ok (time_start1, files1)
          else
            match entries.getLast? with
            | none => .error "IndexError"
            | some lastEntry =>
                getGranulesLoop srv fuel (advanceBound lastEntry.time_end) time_start1 files1

/-- Inner scan of `np.argmin`: first index attaining the minimum (a strictly
smaller value replaces the best so far). -/
def argminGo (f : Int → Nat) : List Int → Nat → Nat → Nat → Nat
  | [], _, best_index, _ => best_index
  | t :: ts, i, best_index, best_val =>
      if f t < best_val then argminGo f ts (i + 1) i (f t)
      else argminGo f ts (i + 1) best_index best_val

/-- `np.argmin` over a list of timestamps after applying `f` (the distance). -/
def argminList (f : Int → Nat) : List Int → Nat
  | [] => 0
  | t :: ts => argminGo f ts 1 0 (f t)

/-- The nested function `get_granules(params, ShortName, SingleDay_flag)`:
runs the pagination loop, then, for MONTHLY/DAILY datasets when only a single
day was requested and more than one granule was collected, reduces the list to
the slice `s3_files_list[day_index : day_index + 1]` where `day_index` is the
`np.argmin` of `|time_start - np.datetime64(StartDate, 'D')|`.  `StartDateD` is
the adjusted start date as a day number (output of the external
`date_adjustment`). -/
def get_granules (srv : Int → CMRResponse) (fuel : Nat) (b0 : Int) (ShortName : String)
    (SingleDay_flag : Bool) (StartDateD : Int) : Except String (List String) :=
  match getGranulesLoop srv fuel b0 [] [] with
  | .error m => .error m
  | .ok (time_start, s3_files_list) =>
      if (strContains ShortName "MONTHLY" || strContains ShortName "DAILY") &&
          (SingleDay_flag && decide (1 < s3_files_list.length)) then
        match time_start with
        | [] => .error "ValueError: argmin of an empty sequence"
        | t :: ts =>
            let day_index := argminList (fun u => (u - StartDateD * nsPerDay).natAbs) (t :: ts)
            .ok ((s3_files_list.drop day_index).take 1)
      else .ok s3_files_list

/- ### `ecco_podaac_s3_query` and its snapshot post-filter -/

/-- The snapshot post-filter loop: `copy = list(tuple(files))`, then for each
file of `files`, if its embedded day-of-month differs from `01`, remove the
first occurrence of that file from the copy (`list.remove`).  A file with no
embedded date raises `IndexError`. -/
def snapshotFilterLoop : List String → List String → Except String (List String)
  | [], copy => .ok copy
  | s3_file :: rest, copy =>
      match extractDayStr s3_file with
      | none => .error "IndexError: list index out of range"
      | some day =>
          snapshotFilterLoop rest (if day ≠ "01" then copy.erase s3_file else copy)

/-- `ecco_podaac_s3_query`: the catalog query followed by the snapshot filter,
applied when the ShortName contains `SNAPSHOT` and `snapshot_interval` is
`monthly`.  Returns `s3_files_list` itself: the function performs no length-one
collapse. -/
def ecco_podaac_s3_query (srv : Int → CMRResponse) (fuel : Nat) (b0 : Int)
    (ShortName snapshot_interval : String) (SingleDay_flag : Bool) (StartDateD : Int) :
    Except String (List String) :=
  match get_granules srv fuel b0 ShortName SingleDay_flag StartDateD with
  | .error m => .error m
  | .ok s3_files_list =>
      if strContains ShortName "SNAPSHOT" && (snapshot_interval == "monthly") then
        snapshotFilterLoop s3_files_list s3_files_list
      else .ok s3_files_list

/-- The Python value returned by a routine documented as `str or list`: either a
single scalar path/handle or a list of them. -/
inductive StrOrList where
  | scalar (s : String)
  | items (l : List String)

/-- The collapsing convention `if len(l) == 1: l = l[0]`. -/
def collapse1 (l : List String) : StrOrList :=
  match l with
  | [x] => .scalar x
  | _ => .items l

/-- The value `ecco_podaac_s3_query` hands to its caller, in the `str or list`
type: the code returns `s3_files_list`, a list, with no length-one collapse. -/
def ecco_podaac_s3_query_result (srv : Int → CMRResponse) (fuel : Nat) (b0 : Int)
    (ShortName snapshot_interval : String) (SingleDay_flag : Bool) (StartDateD : Int) :
    Except String StrOrList :=
  (ecco_podaac_s3_query srv fuel b0 ShortName snapshot_interval SingleDay_flag
    StartDateD).map StrOrList.items

/-- `ecco_podaac_s3_open`: queries the catalog, opens every reference
(`sopen` models `s3.open`), and collapses a length-one list to a scalar.
The call to `ecco_podaac_s3_query` passes only
`(ShortName, StartDate, EndDate)`, so the query runs with its default
`snapshot_interval='monthly'` regardless of this function's own
`snapshot_interval` argument. -/
def ecco_podaac_s3_open (srv : Int → CMRResponse) (fuel : Nat) (b0 : Int)
    (ShortName snapshot_interval : String) (SingleDay_flag : Bool) (StartDateD : Int)
    (sopen : String → String) : Except String StrOrList :=
  match ecco_podaac_s3_query srv fuel b0 ShortName "monthly" SingleDay_flag StartDateD with
  | .error m => .error m
  | .ok s3_files_list => .ok (collapse1 (s3_files_list.map sopen))

/- ### The local filesystem and the download helpers -/

/-- The observable local filesystem: which directories and which files exist. -/
structure FSState where
  dirs : List String
  files : List String

/-- `download_file(s3, url, output_dir, force)`: raises when `output_dir` is
not a directory; skips the transfer when the target file exists and `force` is
false; otherwise `s3.get_file` writes the target.  The `Bool` component records
whether an object-store transfer was performed. -/
def download_file (st : FSState) (url output_dir : String) (force : Bool) :
    Except String (String × FSState × Bool) :=
  if !(st.dirs.contains output_dir) then
    .error ("Output directory does not exist! (" ++ output_dir ++ ")")
  else
    let target_file := joinP output_dir (basenameStr url)
    if st.files.contains target_file && force == false then .ok (target_file, st, false)
    else .ok (target_file, { st with files := target_file :: st.files }, true)

/-- `download_files_concurrently`: the body evaluates the names
`ThreadPoolExecutor`, `tqdm`, `repeat` and `sys`, none of which is bound in the
enclosing module scope (the only `ThreadPoolExecutor` import is local to
`ecco_podaac_s3_get`), so the call raises `NameError` at the
`with ThreadPoolExecutor(...)` statement, before any transfer and before any
filesystem change. -/
def download_files_concurrently (st : FSState) (dls : List String) (download_dir : String)
    (n_workers : Nat) (force : Bool) : Except String (List String × FSState) :=
  .error "NameError: name ThreadPoolExecutor is not defined"

/-- The sequential branch of `download_files_s3_wrapper`: a plain `for` loop of
`download_file` over the URL list, appending each result. -/
def downloadSeqLoop (download_dir : String) (force : Bool) :
    FSState → List String → Except String (List String × FSState)
  | st, [] => .ok ([], st)
  | st, u :: rest =>
      match download_file st u download_dir force with
      | .error m => .error m
      | .ok (result, st1, _) =>
          match downloadSeqLoop download_dir force st1 rest with
          | .error m => .error m
          | .ok (results, st2) => .ok (result :: results, st2)

/-- `download_files_s3_wrapper`: tries the concurrent downloader; on any
exception (the bare `except:`) falls back to the sequential loop, whose branch
ends in `return downloaded_files`.  If the concurrent call were to succeed, the
function body would fall off its end and return `None` — the `none` component
models that Python `None`. -/
def download_files_s3_wrapper (st : FSState) (s3_files_list : List String)
    (download_dir : String) (n_workers : Nat) (force_redownload : Bool) :
    Except String (Option (List String) × FSState) :=
  match download_files_concurrently st s3_files_list download_dir n_workers
      force_redownload with
  | .ok (_, st1) => .ok (none, st1)
  | .error _ =>
      match downloadSeqLoop download_dir force_redownload st s3_files_list with
      | .error m => .error m
      | .ok (downloaded_files, st1) => .ok (some downloaded_files, st1)

/-- `Path.mkdir(exist_ok=True, parents=True)` on the download directory. -/
def mkdirSt (st : FSState) (d : String) : FSState :=
  if st.dirs.contains d then st else { st with dirs := d :: st.dirs }

/-- `ecco_podaac_s3_get`: creates the download directory, queries the catalog
(again without forwarding its `snapshot_interval` argument: the query runs with
its default `monthly`), downloads through the wrapper, and, when
`return_downloaded_files` is true, returns the collapsed file list (`len` of
the Python `None` from a successful concurrent path would raise `TypeError`). -/
def ecco_podaac_s3_get (st : FSState) (srv : Int → CMRResponse) (fuel : Nat) (b0 : Int)
    (ShortName snapshot_interval : String) (SingleDay_flag : Bool) (StartDateD : Int)
    (download_root_dir : String) (n_workers : Nat)
    (force_redownload return_downloaded_files : Bool) :
    Except String (Option StrOrList × FSState) :=
  let download_dir := joinP download_root_dir ShortName
  let st1 := mkdirSt st download_dir
  match ecco_podaac_s3_query srv fuel b0 ShortName "monthly" SingleDay_flag StartDateD with
  | .error m => .error m
  | .ok s3_files_list =>
      match download_files_s3_wrapper st1 s3_files_list download_dir n_workers
          force_redownload with
      | .error m => .error m
      | .ok (dls, st2) =>
          if return_downloaded_files then
            match dls with
            | none => .error "TypeError: object of type NoneType has no len()"
            | some downloaded_files => .ok (some (collapse1 downloaded_files), st2)
          else .ok (none, st2)

/- ### The disk-aware dispatcher -/

/-- `np.fmin(np.fmax(max_avail_frac, 0), 0.9)`. -/
def clampFrac (f : ℚ) : ℚ := min (max f 0) (9 / 10)

/-- Size of one dataset: the sum of `s3.info(f)['size']` over the candidate
files whose local target `join(download_dir, basename(f))` is not already a
file. -/
def datasetSize (st : FSState) (download_dir : String) (sizeOf : String → ℚ)
    (s3_files_list : List String) : ℚ :=
  (s3_files_list.filter
      (fun f => !(st.files.contains (joinP download_dir (basenameStr f))))).foldl
    (fun acc f => acc + sizeOf f) 0

/-- Resolution of `snapshot_interval=None`: `daily` when any requested
ShortName contains `DAILY`, else `monthly`. -/
def snapshotIntervalDefault (snapshot_interval : Option String)
    (ShortNames : List String) : String :=
  match snapshot_interval with
  | some s => s
  | none => if ShortNames.any (fun sn => strContains sn "DAILY") then "daily" else "monthly"

/-- The sizing loop of `ecco_podaac_s3_get_diskaware`: per ShortName, query the
catalog, create the download directory, and accumulate the dataset size; the
per-dataset file lists and the total size are returned for the dispatch
decision. -/
def diskawareSizingLoop (srv : Int → CMRResponse) (fuel : Nat) (b0 : Int)
    (SingleDay_flag : Bool) (StartDateD : Int) (si download_root_dir : String)
    (sizeOf : String → ℚ) :
    FSState → List String → Except String (List (String × List String) × ℚ × FSState)
  | st, [] => .ok ([], 0, st)
  | st, curr_shortname :: rest =>
      match ecco_podaac_s3_query srv fuel b0 curr_shortname si SingleDay_flag StartDateD with
      | .error m => .error m
      | .ok s3_files_list =>
          let download_dir := joinP download_root_dir curr_shortname
          let st1 := mkdirSt st download_dir
          let curr_dataset_size := datasetSize st1 download_dir sizeOf s3_files_list
          match diskawareSizingLoop srv fuel b0 SingleDay_flag StartDateD si
              download_root_dir sizeOf st1 rest with
          | .error m => .error m
          | .ok (pairs, total, st2) =>
              .ok ((curr_shortname, s3_files_list) :: pairs, curr_dataset_size + total, st2)

/-- A per-dataset value of the dispatcher's result, tagged with the branch that
produced it. -/
inductive Retrieved where
  | downloaded (v : StrOrList)
  | opened (v : StrOrList)

/-- Whether a dispatcher value came from the download branch. -/
def isDownloadedB : Retrieved → Bool
  | .downloaded _ => true
  | .opened _ => false

/-- The download branch of the dispatcher: every dataset's candidates go
through `download_files_s3_wrapper`, with the length-one collapse. -/
def diskawareDownloadLoop (download_root_dir : String) (n_workers : Nat)
    (force_redownload : Bool) :
    FSState → List (String × List String) →
      Except String (List (String × Retrieved) × FSState)
  | st, [] => .ok ([], st)
  | st, (curr_shortname, s3_files_list) :: rest =>
      match download_files_s3_wrapper st s3_files_list
          (joinP download_root_dir curr_shortname) n_workers force_redownload with
      | .error m => .error m
      | .ok (none, _) => .error "TypeError: object of type NoneType has no len()"
      | .ok (some downloaded_files, st1) =>
          match diskawareDownloadLoop download_root_dir n_workers force_redownload st1
              rest with
          | .error m => .error m
          | .ok (pairs, st2) =>
              .ok ((curr_shortname, .downloaded (collapse1 downloaded_files)) :: pairs, st2)

/-- The remote-open branch of the dispatcher: every dataset's candidates are
opened via `s3.open`, with the length-one collapse; the filesystem is
untouched. -/
def diskawareOpenLoop (sopen : String → String) :
    List (String × List String) → List (String × Retrieved)
  | [] => []
  | (curr_shortname, s3_files_list) :: rest =>
      (curr_shortname, .opened (collapse1 (s3_files_list.map sopen))) ::
        diskawareOpenLoop sopen rest

/-- The free-disk-space probe loop: try `shutil.disk_usage(query_dir)`; on
failure step to the parent via `splitHeadStr` and retry.  The Python fallback
`except: ... return -1` guards only `os.path.join(*os.path.split(query_dir)[:-1])`,
which never raises for a string argument, so the loop has no error exit: it
either finds an existing directory or keeps looping (`none` = fuel exhausted,
standing for an execution that has not terminated). -/
def diskProbe (existsDir : String → Bool) (freeSpace : String → ℚ) :
    Nat → String → Option ℚ
  | 0, _ => none
  | n + 1, query_dir =>
      if existsDir query_dir then some (freeSpace query_dir)
      else diskProbe existsDir freeSpace n (splitHeadStr query_dir)

/-- `ecco_podaac_s3_get_diskaware`: clamp the fraction, resolve the snapshot
interval, size every dataset, probe free space at the download root, and make
one global decision: download every dataset when
`sizes_sum / avail_storage <= max_avail_frac`, else open every dataset
remotely. -/
def ecco_podaac_s3_get_diskaware (st : FSState) (srv : Int → CMRResponse) (fuel : Nat)
    (b0 : Int) (ShortNames : List String) (snapshot_interval : Option String)
    (SingleDay_flag : Bool) (StartDateD : Int) (download_root_dir : String)
    (max_avail_frac : ℚ) (n_workers : Nat) (force_redownload : Bool)
    (sizeOf : String → ℚ) (existsDir : String → Bool) (freeSpace : String → ℚ)
    (probeFuel : Nat) (sopen : String → String) :
    Except String (List (String × Retrieved) × FSState) :=
  let frac := clampFrac max_avail_frac
  let si := snapshotIntervalDefault snapshot_interval ShortNames
  match diskawareSizingLoop srv fuel b0 SingleDay_flag StartDateD si download_root_dir
      sizeOf st ShortNames with
  | .error m => .error m
  | .ok (pairs, sizes_sum, st1) =>
      match diskProbe existsDir freeSpace probeFuel download_root_dir with
      | none => .error "disk space probe does not terminate"
      | some avail_storage =>
          if sizes_sum / avail_storage ≤ frac then
            diskawareDownloadLoop download_root_dir n_workers force_redownload st1 pairs
          else .ok (diskawareOpenLoop sopen pairs, st1)

/- ### Helper lemmas: the download layer -/

/-- When the output directory exists, `download_file` succeeds, returns the
target path, preserves the directory set, and leaves the target present. -/
lemma download_file_ok_of_dir (st : FSState) (url download_dir : String) (force : Bool)
    (h : st.dirs.contains download_dir = true) :
    ∃ st1 io, download_file st url download_dir force =
        .ok (joinP download_dir (basenameStr url), st1, io) ∧ st1.dirs = st.dirs ∧
        st1.files.contains (joinP download_dir (basenameStr url)) = true := by
  unfold download_file
  rw [h]
  cases hc : (st.files.contains (joinP download_dir (basenameStr url)) &&
      force == false) with
  | true =>
      have hc2 := hc
      rw [Bool.and_eq_true] at hc2
      refine ⟨st, false, ?_, rfl, hc2.1⟩
      simp only [hc]
      rfl
  | false =>
      refine ⟨{ st with files := joinP download_dir (basenameStr url) :: st.files }, true,
        ?_, rfl, ?_⟩
      · simp only [hc]
        rfl
      · simp [List.contains_cons]

/-- When the output directory exists, the sequential loop downloads every URL
in input order to its target path. -/
lemma downloadSeqLoop_ok_of_dir (download_dir : String) (force : Bool) :
    ∀ (urls : List String) (st : FSState), st.dirs.contains download_dir = true →
      ∃ st1, downloadSeqLoop download_dir force st urls =
          .ok (urls.map (fun u => joinP download_dir (basenameStr u)), st1) ∧
        st1.dirs = st.dirs := by
  intro urls
  induction urls with
  | nil => intro st _; exact ⟨st, rfl, rfl⟩
  | cons u rest ih =>
      intro st h
      obtain ⟨st1, io, hdf, hdirs, _⟩ := download_file_ok_of_dir st u download_dir force h
      obtain ⟨st2, hrec, hdirs2⟩ := ih st1 (by rw [hdirs]; exact h)
      refine ⟨st2, ?_, by rw [hdirs2, hdirs]⟩
      unfold downloadSeqLoop
      simp only [hdf, hrec]
      simp

/-- C9: `download_file` is idempotent under `force=False`: a missing output
directory raises instead of transferring; an existing target is returned
without a transfer; and a second call on the state produced by any successful
first call returns the same local path with no object-store transfer. -/
theorem C9_download_file_idempotent (st : FSState) (url output_dir : String) :
    (st.dirs.contains output_dir = false →
      download_file st url output_dir false =
        .error ("Output directory does not exist! (" ++ output_dir ++ ")")) ∧
    (st.dirs.contains output_dir = true →
      st.files.contains (joinP output_dir (basenameStr url)) = true →
      download_file st url output_dir false =
        .ok (joinP output_dir (basenameStr url), st, false)) ∧
    (∀ p st1 io1, download_file st url output_dir false = .ok (p, st1, io1) →
      download_file st1 url output_dir false = .ok (p, st1, false)) := by
  refine ⟨?_, ?_, ?_⟩
  · intro h
    unfold download_file
    rw [h]
    rfl
  · intro h hf
    unfold download_file
    rw [h]
    simp only [hf]
    rfl
  · intro p st1 io1 h1
    unfold download_file at h1
    cases hdir : st.dirs.contains output_dir with
    | false =>
        rw [hdir] at h1
        exact absurd h1 (by simp)
    | true =>
        rw [hdir] at h1
        cases hc : (st.files.contains (joinP output_dir (basenameStr url)) &&
            false == false) with
        | true =>
            simp only [hc] at h1
            obtain ⟨hp, hst, _⟩ : joinP output_dir (basenameStr url) = p ∧ st = st1 ∧
                false = io1 := by
              simpa using h1
            subst hp; subst hst
            unfold download_file
            rw [hdir]
            simp only [hc]
            rfl
        | false =>
            simp only [hc] at h1
            obtain ⟨hp, hst, _⟩ : joinP output_dir (basenameStr url) = p ∧
                { st with files := joinP output_dir (basenameStr url) :: st.files } = st1 ∧
                true = io1 := by
              simpa using h1
            subst hp; subst hst
            unfold download_file
            have hdir1 : ({ st with
                files := joinP output_dir (basenameStr url) :: st.files } :
                FSState).dirs.contains output_dir = true := hdir
            rw [hdir1]
            have hcon : ({ st with
                files := joinP output_dir (basenameStr url) :: st.files } :
                FSState).files.contains (joinP output_dir (basenameStr url)) = true := by
              simp [List.contains_cons]
            simp only [hcon]
            rfl

/-- Witness for C9 at a concrete input: a first call that transfers, then a
second call that skips. -/
theorem C9_download_file_idempotent_witness :
    download_file ⟨["d"], ["d/f.nc"]⟩ "s3://b/f.nc" "d" false =
      .ok ("d/f.nc", ⟨["d"], ["d/f.nc"]⟩, false) :=
  (C9_download_file_idempotent ⟨["d"], []⟩ "s3://b/f.nc" "d").2.2 "d/f.nc"
    ⟨["d"], ["d/f.nc"]⟩ true rfl

/-- C10: the wrapper is observably the plain sequential loop of
`download_file`: the concurrent path raises `NameError` before any transfer
(its names are unbound in scope), so the bare `except` branch runs on every
call. -/
theorem C10_wrapper_equiv_sequential (st : FSState) (urls : List String)
    (download_dir : String) (n_workers : Nat) (force : Bool) :
    download_files_concurrently st urls download_dir n_workers force =
      .error "NameError: name ThreadPoolExecutor is not defined" ∧
    download_files_s3_wrapper st urls download_dir n_workers force =
      (downloadSeqLoop download_dir force st urls).map (fun r => (some r.1, r.2)) := by
  refine ⟨rfl, ?_⟩
  unfold download_files_s3_wrapper download_files_concurrently
  cases hseq : downloadSeqLoop download_dir force st urls with
  | error m => simp [hseq, Except.map]
  | ok r => cases r with
    | mk l st1 => simp [hseq, Except.map]

/-- C1: for every batch, on the (always-raising) parallel path's failure the
wrapper falls back to the fully sequential retry instead of propagating, and
every non-raising outcome returns the ordered list of local target paths. -/
theorem C1_wrapper_fallback_ordered (st : FSState) (urls : List String)
    (download_dir : String) (n_workers : Nat) (force : Bool)
    (h : st.dirs.contains download_dir = true) :
    ∃ st1, download_files_s3_wrapper st urls download_dir n_workers force =
        .ok (some (urls.map (fun u => joinP download_dir (basenameStr u))), st1) := by
  obtain ⟨st1, hseq, _⟩ := downloadSeqLoop_ok_of_dir download_dir force urls st h
  refine ⟨st1, ?_⟩
  unfold download_files_s3_wrapper download_files_concurrently
  rw [hseq]

/-- Witness for C1 at a concrete two-URL batch. -/
theorem C1_wrapper_fallback_ordered_witness :
    ∃ st1, download_files_s3_wrapper ⟨["d"], []⟩ ["s3://b/a.nc", "s3://b/c.nc"] "d" 6
        false =
      .ok (some (["s3://b/a.nc", "s3://b/c.nc"].map
        (fun u => joinP "d" (basenameStr u))), st1) :=
  C1_wrapper_fallback_ordered ⟨["d"], []⟩ ["s3://b/a.nc", "s3://b/c.nc"] "d" 6 false
    (by decide)

/- ### The disk-space probe (C8) -/

/-- On a filesystem where no probed path exists, the probe loop never produces
a value, for any amount of fuel: it has no error exit. -/
lemma diskProbe_false_none (freeSpace : String → ℚ) :
    ∀ (n : Nat) (q : String), diskProbe (fun _ => false) freeSpace n q = none
  | 0, _ => rfl
  | n + 1, q => by
      unfold diskProbe
      simp only [Bool.false_eq_true, if_false]
      exact diskProbe_false_none freeSpace n (splitHeadStr q)

/-- C8 (refuting the fatal-error fallback): when no ancestor of
`download_root_dir` exists, the probe loop neither obtains a free-space value
nor fails: it walks `foo/bar → foo → `` ` `` and then loops on the empty string
forever, because the parent step `os.path.join(*os.path.split(q)[:-1])` never
raises, leaving the `return -1` configuration-error branch unreachable. -/
theorem C8_disk_probe_never_fails (freeSpace : String → ℚ) (n : Nat) :
    diskProbe (fun _ => false) freeSpace n "foo/bar" = none ∧
    splitHeadStr "foo/bar" = "foo" ∧ splitHeadStr "foo" = "" ∧ splitHeadStr "" = "" :=
  ⟨diskProbe_false_none freeSpace n "foo/bar", by decide, by decide, by decide⟩

/- ### Pagination (C2) -/

/-- One full page (exactly 2000 entries): the loop appends the page's
timestamps and links and re-queries with the bound advanced one day past the
last entry's end timestamp. -/
lemma getGranulesLoop_step_full (srv : Int → CMRResponse) (n : Nat) (bound : Int)
    (ts : List Int) (fs : List String) (p : List Granule) (e : Granule)
    (h : srv bound = .feed p) (hl : p.length = 2000) (hlast : p.getLast? = some e) :
    getGranulesLoop srv (n + 1) bound ts fs =
      getGranulesLoop srv n (advanceBound e.time_end)
        (ts ++ p.map (fun g => g.time_start)) (fs ++ linksOf p) := by
  conv_lhs => simp only [getGranulesLoop]
  rw [h]
  simp [hl, hlast]

/-- A partial page (fewer than 2000 entries) completes the query. -/
lemma getGranulesLoop_step_partial (srv : Int → CMRResponse) (n : Nat) (bound : Int)
    (ts : List Int) (fs : List String) (p : List Granule)
    (h : srv bound = .feed p) (hl : p.length < 2000) :
    getGranulesLoop srv (n + 1) bound ts fs =
      .ok (ts ++ p.map (fun g => g.time_start), fs ++ linksOf p) := by
  conv_lhs => simp only [getGranulesLoop]
  rw [h]
  simp [hl]

/-- `filterMap` preserves length when the function succeeds on every element. -/
lemma length_filterMap_of_isSome {α β : Type} (f : α → Option β) :
    ∀ (l : List α), (∀ x ∈ l, (f x).isSome = true) → (l.filterMap f).length = l.length := by
  intro l
  induction l with
  | nil => intro _; rfl
  | cons x xs ih =>
      intro h
      obtain ⟨y, hy⟩ := Option.isSome_iff_exists.mp (h x (List.mem_cons_self x xs))
      rw [List.filterMap_cons, hy]
      simp [ih (fun z hz => h z (List.mem_cons_of_mem x hz))]

/-- C2: for a response sequence of two full pages followed by one partial page,
served in order at the successively advanced bounds, the loop terminates on the
partial page and collects exactly the concatenation of the three pages' links,
each page contributing once; when every entry carries a direct-storage link and
the pages have 2000, 2000 and 500 entries, exactly 4500 references result. -/
theorem C2_pagination (srv : Int → CMRResponse) (b0 : Int) (p1 p2 p3 : List Granule)
    (e1 e2 : Granule) (fuel : Nat)
    (h1 : srv b0 = .feed p1) (hl1 : p1.length = 2000) (hlast1 : p1.getLast? = some e1)
    (h2 : srv (advanceBound e1.time_end) = .feed p2) (hl2 : p2.length = 2000)
    (hlast2 : p2.getLast? = some e2)
    (h3 : srv (advanceBound e2.time_end) = .feed p3) (hl3 : p3.length = 500)
    (hf : 3 ≤ fuel)
    (hone : ∀ g ∈ p1 ++ p2 ++ p3, (firstDirectLink g.links).isSome = true) :
    getGranulesLoop srv fuel b0 [] [] =
      .ok ((p1 ++ p2 ++ p3).map (fun g => g.time_start),
        linksOf p1 ++ linksOf p2 ++ linksOf p3) ∧
    (linksOf p1 ++ linksOf p2 ++ linksOf p3).length = 4500 := by
  obtain ⟨k, rfl⟩ : ∃ k, fuel = k + 3 := ⟨fuel - 3, by omega⟩
  constructor
  · rw [show k + 3 = (k + 2) + 1 by omega,
      getGranulesLoop_step_full srv (k + 2) b0 [] [] p1 e1 h1 hl1 hlast1,
      show k + 2 = (k + 1) + 1 by omega,
      getGranulesLoop_step_full srv (k + 1) _ _ _ p2 e2 h2 hl2 hlast2,
      getGranulesLoop_step_partial srv k _ _ _ p3 h3 (by omega)]
    simp [linksOf, List.filterMap_append]
  · have hsplit : (p1 ++ p2 ++ p3).filterMap (fun g => firstDirectLink g.links) =
        linksOf p1 ++ linksOf p2 ++ linksOf p3 := by
      simp [linksOf, List.filterMap_append]
    rw [← hsplit, length_filterMap_of_isSome _ _ hone]
    simp [hl1, hl2, hl3]

/-- `getLast?` of a nonempty replicated list. -/
lemma getLast?_replicate_of_pos {α : Type} (x : α) :
    ∀ (n : Nat), n ≠ 0 → (List.replicate n x).getLast? = some x
  | 0, h => absurd rfl h
  | 1, _ => rfl
  | n + 2, _ => by
      have ih := getLast?_replicate_of_pos x (n + 1) (Nat.succ_ne_zero n)
      rw [List.replicate_succ, List.replicate_succ, List.getLast?_cons_cons,
        ← List.replicate_succ]
      exact ih

/-- Witness granule for day 0 (C2). -/
def gA : Granule := ⟨0, 0, [⟨"direct download access via S3", "fA"⟩]⟩

/-- Witness granule for day 1 (C2). -/
def gB : Granule := ⟨nsPerDay, nsPerDay, [⟨"direct download access via S3", "fB"⟩]⟩

/-- Witness granule for day 2 (C2). -/
def gC : Granule := ⟨2 * nsPerDay, 2 * nsPerDay, [⟨"direct download access via S3", "fC"⟩]⟩

/-- Witness catalog for C2: a full page at bound 0, a full page at bound 1, a
partial page elsewhere. -/
def srvC2 : Int → CMRResponse := fun bound =>
  if bound = 0 then .feed (List.replicate 2000 gA)
  else if bound = 1 then .feed (List.replicate 2000 gB)
  else .feed (List.replicate 500 gC)

/-- Witness for C2: the concrete three-page catalog yields exactly 4500
references. -/
theorem C2_pagination_witness :
    getGranulesLoop srvC2 3 0 [] [] =
      .ok ((List.replicate 2000 gA ++ List.replicate 2000 gB ++
          List.replicate 500 gC).map (fun g => g.time_start),
        linksOf (List.replicate 2000 gA) ++ linksOf (List.replicate 2000 gB) ++
          linksOf (List.replicate 500 gC)) ∧
    (linksOf (List.replicate 2000 gA) ++ linksOf (List.replicate 2000 gB) ++
      linksOf (List.replicate 500 gC)).length = 4500 := by
  have hb1 : advanceBound gA.time_end = 1 := by decide
  have hb2 : advanceBound gB.time_end = 2 := by decide
  refine C2_pagination srvC2 0 _ _ _ gA gB 3 rfl (by rw [List.length_replicate])
    (getLast?_replicate_of_pos gA 2000 (by decide)) ?_ (by rw [List.length_replicate])
    (getLast?_replicate_of_pos gB 2000 (by decide)) ?_ (by rw [List.length_replicate])
    (by omega) ?_
  · rw [hb1]
    rfl
  · rw [hb2]
    rfl
  · intro g hg
    simp only [List.mem_append, List.mem_replicate] at hg
    rcases hg with (⟨_, rfl⟩ | ⟨_, rfl⟩) | ⟨_, rfl⟩ <;> rfl

/- ### The single-day reduction (C3) -/

/-- Correctness of the `np.argmin` scan: starting from a best index whose value
is minimal over the first `k` positions, scanning the suffix `T.drop k` returns
an in-bounds index whose value is minimal over the whole list. -/
lemma argminGo_spec (f : Int → Nat) (T : List Int) :
    ∀ (s : List Int), ∀ (k best_index : Nat) (hbi : best_index < T.length),
      T.drop k = s →
      (∀ (j : Nat) (hj : j < T.length), j < k →
        f (T.get ⟨best_index, hbi⟩) ≤ f (T.get ⟨j, hj⟩)) →
      ∃ (r : Nat) (hr : r < T.length),
        argminGo f s k best_index (f (T.get ⟨best_index, hbi⟩)) = r ∧
        ∀ (j : Nat) (hj : j < T.length), f (T.get ⟨r, hr⟩) ≤ f (T.get ⟨j, hj⟩) := by
  intro s
  induction s with
  | nil =>
      intro k bi hbi hs hprev
      refine ⟨bi, hbi, rfl, ?_⟩
      intro j hj
      refine hprev j hj ?_
      have h0 : T.length - k = 0 := by
        rw [← List.length_drop, hs]
        rfl
      omega
  | cons x xs ih =>
      intro k bi hbi hs hprev
      have hlen : (T.drop k).length = T.length - k := List.length_drop k T
      rw [hs] at hlen
      have hk : k < T.length := by
        simp only [List.length_cons] at hlen
        omega
      have hcons := List.drop_eq_getElem_cons hk
      rw [hs] at hcons
      obtain ⟨hx, hxs⟩ : x = T[k] ∧ xs = T.drop (k + 1) := by
        exact ⟨by injection hcons, by injection hcons⟩
      have hgetk : T.get ⟨k, hk⟩ = x := by
        rw [List.get_eq_getElem, hx]
      simp only [argminGo]
      by_cases hlt : f x < f (T.get ⟨bi, hbi⟩)
      · rw [if_pos hlt, ← hgetk]
        refine ih (k + 1) k hk hxs.symm ?_
        intro j hj hjk
        rcases Nat.lt_succ_iff_lt_or_eq.mp hjk with hjlt | rfl
        · exact le_of_lt (lt_of_lt_of_le (hgetk ▸ hlt) (hprev j hj hjlt))
        · exact le_refl _
      · rw [if_neg hlt]
        refine ih (k + 1) bi hbi hxs.symm ?_
        intro j hj hjk
        rcases Nat.lt_succ_iff_lt_or_eq.mp hjk with hjlt | rfl
        · exact hprev j hj hjlt
        · rw [hgetk]
          exact Nat.le_of_not_lt hlt

/-- `argminList` on a nonempty list returns the first index of a minimal value:
in particular an in-bounds index whose value is a lower bound of the list. -/
lemma argminList_spec (f : Int → Nat) (t : Int) (ts : List Int) :
    ∃ (r : Nat) (hr : r < (t :: ts).length),
      argminList f (t :: ts) = r ∧
      ∀ (j : Nat) (hj : j < (t :: ts).length),
        f ((t :: ts).get ⟨r, hr⟩) ≤ f ((t :: ts).get ⟨j, hj⟩) := by
  have h0 : (0 : Nat) < (t :: ts).length := by simp
  have hprev : ∀ (j : Nat) (hj : j < (t :: ts).length), j < 1 →
      f ((t :: ts).get ⟨0, h0⟩) ≤ f ((t :: ts).get ⟨j, hj⟩) := by
    intro j hj hj1
    have : j = 0 := by omega
    subst this
    exact le_refl _
  have hdrop : (t :: ts).drop 1 = ts := rfl
  have hval : f ((t :: ts).get ⟨0, h0⟩) = f t := rfl
  obtain ⟨r, hr, heq, hmin⟩ := argminGo_spec f (t :: ts) ts 1 0 h0 hdrop hprev
  exact ⟨r, hr, by rw [argminList, ← hval]; exact heq, hmin⟩

/-- Slicing `l[i : i+1]` at an in-bounds index yields the singleton at `i`. -/
lemma dropThenTakeOne {α : Type} :
    ∀ (l : List α) (i : Nat) (h : i < l.length), (l.drop i).take 1 = [l.get ⟨i, h⟩]
  | _ :: _, 0, _ => rfl
  | _ :: xs, i + 1, h => dropThenTakeOne xs i (by simpa using h)

/-- C3: for a MONTHLY/DAILY dataset queried over a single calendar day, the
result of `get_granules` always has length at most one, and whenever more than
one candidate was collected (and the `time_start` array aligns with the file
list, one entry per collected link), the result is exactly the singleton at the
first index whose start timestamp is nearest the requested start date. -/
theorem C3_single_day_collapse (srv : Int → CMRResponse) (fuel : Nat) (b0 : Int)
    (ShortName : String) (StartDateD : Int) (times : List Int) (raw files : List String)
    (hMD : (strContains ShortName "MONTHLY" || strContains ShortName "DAILY") = true)
    (hloop : getGranulesLoop srv fuel b0 [] [] = .ok (times, raw))
    (h : get_granules srv fuel b0 ShortName true StartDateD = .ok files) :
    files.length ≤ 1 ∧
    (1 < raw.length → times.length = raw.length →
      ∃ (i : Nat) (hi : i < raw.length) (hi2 : i < times.length),
        files = [raw.get ⟨i, hi⟩] ∧
        ∀ (j : Nat) (hj : j < times.length),
          (times.get ⟨i, hi2⟩ - StartDateD * nsPerDay).natAbs ≤
            (times.get ⟨j, hj⟩ - StartDateD * nsPerDay).natAbs) := by
  unfold get_granules at h
  rw [hloop, hMD] at h
  dsimp only [] at h
  by_cases hlen : 1 < raw.length
  · have hcond : (true && (true && decide (1 < raw.length))) = true := by simp [hlen]
    rw [hcond, if_pos rfl] at h
    cases times with
    | nil => simp at h
    | cons t ts =>
        simp only [Except.ok.injEq] at h
        obtain ⟨r, hr, hrEq, hrMin⟩ :=
          argminList_spec (fun u => (u - StartDateD * nsPerDay).natAbs) t ts
        constructor
        · rw [← h, List.length_take]
          omega
        · intro _ htlen
          have hrRaw : r < raw.length := by
            rw [← htlen]
            exact hr
          refine ⟨r, hrRaw, hr, ?_, ?_⟩
          · rw [← h, hrEq]
            exact dropThenTakeOne raw r hrRaw
          · intro j hj
            exact hrMin j hj
  · have hcond : (true && (true && decide (1 < raw.length))) = false := by simp [hlen]
    rw [hcond] at h
    simp only [Bool.false_eq_true, if_false, Except.ok.injEq] at h
    constructor
    · rw [← h]
      omega
    · intro hlen2 _
      exact absurd hlen2 hlen

/-- Witness catalog for C3: one page with two MONTHLY granules, on day 0 and
day 5. -/
def srvC3 : Int → CMRResponse := fun _ =>
  .feed [⟨0, 0, [⟨"direct download access via S3", "s3://b/mon1.nc"⟩]⟩,
    ⟨5 * nsPerDay, 5 * nsPerDay, [⟨"direct download access via S3", "s3://b/mon2.nc"⟩]⟩]

/-- Witness for C3: of the two candidates, only the one nearest the requested
start day (day 0) survives. -/
theorem C3_single_day_collapse_witness :
    (["s3://b/mon1.nc"] : List String).length ≤ 1 ∧
    (1 < (["s3://b/mon1.nc", "s3://b/mon2.nc"] : List String).length →
      ([0, 5 * nsPerDay] : List Int).length =
        (["s3://b/mon1.nc", "s3://b/mon2.nc"] : List String).length →
      ∃ (i : Nat) (hi : i < (["s3://b/mon1.nc", "s3://b/mon2.nc"] : List String).length)
        (hi2 : i < ([0, 5 * nsPerDay] : List Int).length),
        ["s3://b/mon1.nc"] =
          [(["s3://b/mon1.nc", "s3://b/mon2.nc"] : List String).get ⟨i, hi⟩] ∧
        ∀ (j : Nat) (hj : j < ([0, 5 * nsPerDay] : List Int).length),
          (([0, 5 * nsPerDay] : List Int).get ⟨i, hi2⟩ - 0 * nsPerDay).natAbs ≤
            (([0, 5 * nsPerDay] : List Int).get ⟨j, hj⟩ - 0 * nsPerDay).natAbs) :=
  C3_single_day_collapse srvC3 1 0 "ECCO_MONTHLY_SSH" 0 [0, 5 * nsPerDay]
    ["s3://b/mon1.nc", "s3://b/mon2.nc"] ["s3://b/mon1.nc"] (by decide) rfl rfl

/- ### The snapshot post-filter (C5) -/

/-- The filter loop only removes elements: its result is contained in the
copy. -/
lemma snapshotFilterLoop_subset :
    ∀ (l copy res : List String), snapshotFilterLoop l copy = .ok res → res ⊆ copy
  | [], copy, res, h => by
      simp only [snapshotFilterLoop, Except.ok.injEq] at h
      subst h
      exact fun a ha => ha
  | s3_file :: rest, copy, res, h => by
      simp only [snapshotFilterLoop] at h
      cases hd : extractDayStr s3_file with
      | none =>
          rw [hd] at h
          exact absurd h (by simp)
      | some day =>
          rw [hd] at h
          dsimp only [] at h
          by_cases hday : day ≠ "01"
          · rw [if_pos hday] at h
            exact fun a ha =>
              List.erase_subset s3_file copy (snapshotFilterLoop_subset rest _ res h ha)
          · rw [if_neg hday] at h
            exact snapshotFilterLoop_subset rest copy res h

/-- A successful filter pass extracted a day from every processed reference. -/
lemma snapshotFilterLoop_extract :
    ∀ (l copy res : List String), snapshotFilterLoop l copy = .ok res →
      ∀ f ∈ l, ∃ d, extractDayStr f = some d
  | [], _, _, _ => by
      intro f hf
      exact absurd hf (List.not_mem_nil f)
  | s3_file :: rest, copy, res, h => by
      intro f hf
      simp only [snapshotFilterLoop] at h
      cases hd : extractDayStr s3_file with
      | none =>
          rw [hd] at h
          exact absurd h (by simp)
      | some day =>
          rw [hd] at h
          rcases List.mem_cons.mp hf with rfl | hf2
          · exact ⟨day, hd⟩
          · exact snapshotFilterLoop_extract rest _ res h f hf2

/-- Counting a reference with a non-`01` day: every occurrence in the
processed list removes one occurrence from the copy. -/
lemma snapshotFilterLoop_count_bad (f d : String) (hf : extractDayStr f = some d)
    (hd : d ≠ "01") :
    ∀ (l copy res : List String), snapshotFilterLoop l copy = .ok res →
      res.count f = copy.count f - l.count f
  | [], copy, res, h => by
      simp only [snapshotFilterLoop, Except.ok.injEq] at h
      subst h
      simp
  | g :: rest, copy, res, h => by
      simp only [snapshotFilterLoop] at h
      cases hg : extractDayStr g with
      | none =>
          rw [hg] at h
          exact absurd h (by simp)
      | some dg =>
          rw [hg] at h
          dsimp only [] at h
          by_cases hdg : dg ≠ "01"
          · rw [if_pos hdg] at h
            have ih := snapshotFilterLoop_count_bad f d hf hd rest (copy.erase g) res h
            by_cases hfg : f = g
            · subst hfg
              rw [List.count_erase_self] at ih
              rw [List.count_cons_self]
              omega
            · rw [List.count_erase_of_ne hfg] at ih
              rw [List.count_cons_of_ne hfg]
              omega
          · rw [if_neg hdg] at h
            have ih := snapshotFilterLoop_count_bad f d hf hd rest copy res h
            have hfg : f ≠ g := by
              intro hEq
              subst hEq
              rw [hf] at hg
              have : d = dg := by injection hg
              rw [not_not] at hdg
              exact hd (this.trans hdg)
            rw [List.count_cons_of_ne hfg]
            exact ih

/-- Every reference surviving the filter (applied, as in the code, with the
list as its own copy) carries day-of-month `01`. -/
lemma snapshotFilterLoop_day01 (files res : List String)
    (h : snapshotFilterLoop files files = .ok res) :
    ∀ f ∈ res, extractDayStr f = some "01" := by
  intro f hf
  have hmem : f ∈ files := snapshotFilterLoop_subset files files res h hf
  obtain ⟨d, hd⟩ := snapshotFilterLoop_extract files files res h f hmem
  by_cases h01 : d = "01"
  · rw [hd, h01]
  · have hcount := snapshotFilterLoop_count_bad f d hd h01 files files res h
    rw [Nat.sub_self] at hcount
    exact absurd hf (List.count_eq_zero.mp hcount)

/-- C5: every reference returned by a snapshot-dataset query under
`snapshot_interval='monthly'` has an embedded date with day-of-month `01`. -/
theorem C5_snapshot_monthly_day01 (srv : Int → CMRResponse) (fuel : Nat) (b0 : Int)
    (ShortName : String) (SingleDay_flag : Bool) (StartDateD : Int) (files : List String)
    (hSnap : strContains ShortName "SNAPSHOT" = true)
    (h : ecco_podaac_s3_query srv fuel b0 ShortName "monthly" SingleDay_flag StartDateD =
      .ok files) :
    ∀ f ∈ files, extractDayStr f = some "01" := by
  unfold ecco_podaac_s3_query at h
  cases hg : get_granules srv fuel b0 ShortName SingleDay_flag StartDateD with
  | error m =>
      rw [hg] at h
      exact absurd h (by simp)
  | ok raw =>
      rw [hg] at h
      dsimp only [] at h
      rw [hSnap] at h
      have hcond : (true && "monthly" == "monthly") = true := by decide
      rw [if_pos hcond] at h
      exact snapshotFilterLoop_day01 raw files h

/-- Witness catalog for C4 and C5: one page with snapshot granules dated
1992-01-01 and 1992-01-02. -/
def srvSnap : Int → CMRResponse := fun _ =>
  .feed [⟨0, 0, [⟨"direct download access via S3", "s3://b/SSH_1992-01-01.nc"⟩]⟩,
    ⟨nsPerDay, nsPerDay, [⟨"direct download access via S3", "s3://b/SSH_1992-01-02.nc"⟩]⟩]

/-- Witness for C5 at the concrete snapshot catalog. -/
theorem C5_snapshot_monthly_day01_witness :
    extractDayStr "s3://b/SSH_1992-01-01.nc" = some "01" :=
  C5_snapshot_monthly_day01 srvSnap 1 0 "ECCO_SNAPSHOT_SSH" false 0
    ["s3://b/SSH_1992-01-01.nc"] (by decide) rfl "s3://b/SSH_1992-01-01.nc" (by simp)

/- ### The ignored snapshot_interval argument (C4) -/

/-- C4 (refuting interval forwarding): at a snapshot catalog holding granules
dated 1992-01-01 and 1992-01-02, the query evaluated with the caller's
`snapshot_interval='daily'` keeps both references, but `ecco_podaac_s3_open`
and `ecco_podaac_s3_get` called with `snapshot_interval='daily'` still return
only the first-of-month reference: both forward the query without the
`snapshot_interval` argument, so its default `monthly` filter applies. -/
theorem C4_snapshot_interval_ignored :
    ecco_podaac_s3_query srvSnap 1 0 "ECCO_SNAPSHOT_SSH" "daily" false 0 =
      .ok ["s3://b/SSH_1992-01-01.nc", "s3://b/SSH_1992-01-02.nc"] ∧
    ecco_podaac_s3_open srvSnap 1 0 "ECCO_SNAPSHOT_SSH" "daily" false 0 (fun s => s) =
      .ok (.scalar "s3://b/SSH_1992-01-01.nc") ∧
    ecco_podaac_s3_get ⟨[], []⟩ srvSnap 1 0 "ECCO_SNAPSHOT_SSH" "daily" false 0 "root" 6
        false true =
      .ok (some (.scalar "root/ECCO_SNAPSHOT_SSH/SSH_1992-01-01.nc"),
        ⟨["root/ECCO_SNAPSHOT_SSH"], ["root/ECCO_SNAPSHOT_SSH/SSH_1992-01-01.nc"]⟩) :=
  ⟨rfl, rfl, rfl⟩

/- ### The length-one collapse (C6) -/

/-- Witness catalog for C6: one page with a single granule. -/
def srvOne : Int → CMRResponse := fun _ =>
  .feed [⟨0, 0, [⟨"direct download access via S3", "s3://b/only.nc"⟩]⟩]

/-- C6 counterexample: a query that produces exactly one reference returns the
one-element list, not the scalar that the str-or-list convention would give. -/
theorem C6_counterexample :
    ecco_podaac_s3_query_result srvOne 1 0 "ECCO_L4_SSH" "monthly" false 0 =
      .ok (.items ["s3://b/only.nc"]) ∧
    StrOrList.items ["s3://b/only.nc"] ≠ StrOrList.scalar "s3://b/only.nc" :=
  ⟨rfl, fun hEq => StrOrList.noConfusion hEq⟩

/-- `mkdir` leaves the created directory present. -/
lemma mkdirSt_contains (st : FSState) (d : String) :
    (mkdirSt st d).dirs.contains d = true := by
  unfold mkdirSt
  cases hc : st.dirs.contains d with
  | true =>
      rw [if_pos rfl]
      exact hc
  | false =>
      rw [if_neg (by simp)]
      simp [List.contains_cons]

/-- When the download directory exists, the wrapper succeeds with the ordered
target paths (through the sequential fallback). -/
lemma wrapper_ok_of_dir (st : FSState) (urls : List String) (download_dir : String)
    (n_workers : Nat) (force : Bool) (h : st.dirs.contains download_dir = true) :
    ∃ st1, download_files_s3_wrapper st urls download_dir n_workers force =
        .ok (some (urls.map (fun u => joinP download_dir (basenameStr u))), st1) := by
  obtain ⟨st1, hseq, _⟩ := downloadSeqLoop_ok_of_dir download_dir force urls st h
  refine ⟨st1, ?_⟩
  unfold download_files_s3_wrapper download_files_concurrently
  rw [hseq]

/-- C6 amended: when a query produces exactly one reference, the query itself
returns the one-element list uncollapsed, while `ecco_podaac_s3_open`,
`ecco_podaac_s3_get` (with `return_downloaded_files=True`) and the per-dataset
values of `ecco_podaac_s3_get_diskaware` all collapse the result to a single
scalar. -/
theorem C6_amended_collapse (srv : Int → CMRResponse) (fuel : Nat) (b0 : Int)
    (ShortName : String) (SingleDay_flag : Bool) (StartDateD : Int) (x : String)
    (hq : ecco_podaac_s3_query srv fuel b0 ShortName "monthly" SingleDay_flag StartDateD =
      .ok [x]) :
    ecco_podaac_s3_query_result srv fuel b0 ShortName "monthly" SingleDay_flag StartDateD =
      .ok (.items [x]) ∧
    (∀ (snapshot_interval : String) (sopen : String → String),
      ecco_podaac_s3_open srv fuel b0 ShortName snapshot_interval SingleDay_flag StartDateD
        sopen = .ok (.scalar (sopen x))) ∧
    (∀ (st : FSState) (snapshot_interval download_root_dir : String) (n_workers : Nat)
        (force_redownload : Bool), ∃ st2,
      ecco_podaac_s3_get st srv fuel b0 ShortName snapshot_interval SingleDay_flag
          StartDateD download_root_dir n_workers force_redownload true =
        .ok (some (.scalar (joinP (joinP download_root_dir ShortName) (basenameStr x))),
          st2)) ∧
    (∀ (st : FSState) (download_root_dir : String) (max_avail_frac : ℚ) (n_workers : Nat)
        (force_redownload : Bool) (sizeOf : String → ℚ) (existsDir : String → Bool)
        (freeSpace : String → ℚ) (probeFuel : Nat) (sopen : String → String)
        (res : List (String × Retrieved)) (st2 : FSState),
      ecco_podaac_s3_get_diskaware st srv fuel b0 [ShortName] (some "monthly")
          SingleDay_flag StartDateD download_root_dir max_avail_frac n_workers
          force_redownload sizeOf existsDir freeSpace probeFuel sopen = .ok (res, st2) →
      ∃ v, res = [(ShortName, v)] ∧
        (v = .downloaded (.scalar (joinP (joinP download_root_dir ShortName)
            (basenameStr x))) ∨
          v = .opened (.scalar (sopen x)))) := by
  refine ⟨?_, ?_, ?_, ?_⟩
  · unfold ecco_podaac_s3_query_result
    rw [hq]
    rfl
  · intro snapshot_interval sopen
    unfold ecco_podaac_s3_open
    rw [hq]
    rfl
  · intro st snapshot_interval download_root_dir n_workers force_redownload
    obtain ⟨st2, hw⟩ := wrapper_ok_of_dir (mkdirSt st (joinP download_root_dir ShortName))
      [x] (joinP download_root_dir ShortName) n_workers force_redownload
      (mkdirSt_contains st (joinP download_root_dir ShortName))
    refine ⟨st2, ?_⟩
    unfold ecco_podaac_s3_get
    rw [hq]
    dsimp only []
    rw [hw]
    rfl
  · intro st download_root_dir max_avail_frac n_workers force_redownload sizeOf existsDir
      freeSpace probeFuel sopen res st2 hrun
    unfold ecco_podaac_s3_get_diskaware at hrun
    dsimp only [] at hrun
    have hsz : diskawareSizingLoop srv fuel b0 SingleDay_flag StartDateD
        (snapshotIntervalDefault (some "monthly") [ShortName]) download_root_dir sizeOf st
        [ShortName] =
        .ok ([(ShortName, [x])],
          datasetSize (mkdirSt st (joinP download_root_dir ShortName))
            (joinP download_root_dir ShortName) sizeOf [x] + 0,
          mkdirSt st (joinP download_root_dir ShortName)) := by
      unfold diskawareSizingLoop
      rw [show snapshotIntervalDefault (some "monthly") [ShortName] = "monthly" from rfl]
      rw [hq]
      rfl
    rw [hsz] at hrun
    dsimp only [] at hrun
    cases hpb : diskProbe existsDir freeSpace probeFuel download_root_dir with
    | none =>
        rw [hpb] at hrun
        exact absurd hrun (by simp)
    | some avail =>
        rw [hpb] at hrun
        dsimp only [] at hrun
        by_cases hdec : (datasetSize (mkdirSt st (joinP download_root_dir ShortName))
            (joinP download_root_dir ShortName) sizeOf [x] + 0) / avail ≤
            clampFrac max_avail_frac
        · rw [if_pos hdec] at hrun
          obtain ⟨st3, hw⟩ := wrapper_ok_of_dir
            (mkdirSt st (joinP download_root_dir ShortName)) [x]
            (joinP download_root_dir ShortName) n_workers force_redownload
            (mkdirSt_contains st (joinP download_root_dir ShortName))
          unfold diskawareDownloadLoop at hrun
          rw [hw] at hrun
          dsimp only [] at hrun
          obtain ⟨hres, _⟩ : [(ShortName, Retrieved.downloaded (collapse1
              (List.map (fun u => joinP (joinP download_root_dir ShortName)
                (basenameStr u)) [x])))] = res ∧ st3 = st2 := by
            simpa [diskawareDownloadLoop] using hrun
          exact ⟨_, hres.symm, Or.inl rfl⟩
        · rw [if_neg hdec] at hrun
          obtain ⟨hres, _⟩ : diskawareOpenLoop sopen [(ShortName, [x])] = res ∧
              mkdirSt st (joinP download_root_dir ShortName) = st2 := by
            simpa using hrun
          exact ⟨_, hres.symm, Or.inr rfl⟩

/-- Witness for C6's amended claim at the single-granule catalog. -/
theorem C6_amended_collapse_witness :
    ecco_podaac_s3_query_result srvOne 1 0 "ECCO_L4_SSH" "monthly" false 0 =
      .ok (.items ["s3://b/only.nc"]) ∧
    ecco_podaac_s3_open srvOne 1 0 "ECCO_L4_SSH" "daily" false 0 (fun s => s) =
      .ok (.scalar "s3://b/only.nc") ∧
    (∃ st2, ecco_podaac_s3_get ⟨[], []⟩ srvOne 1 0 "ECCO_L4_SSH" "daily" false 0 "root" 6
        false true =
      .ok (some (.scalar (joinP (joinP "root" "ECCO_L4_SSH")
        (basenameStr "s3://b/only.nc"))), st2)) := by
  obtain ⟨h1, h2, h3, _⟩ := C6_amended_collapse srvOne 1 0 "ECCO_L4_SSH" false 0
    "s3://b/only.nc" rfl
  exact ⟨h1, h2 "daily" (fun s => s), h3 ⟨[], []⟩ "daily" "root" 6 false⟩

/- ### The global download-vs-open decision (C7) -/

/-- Every value produced by the download branch is tagged `downloaded`. -/
lemma diskawareDownloadLoop_all (download_root_dir : String) (n_workers : Nat)
    (force_redownload : Bool) :
    ∀ (pairs : List (String × List String)) (st : FSState)
      (res : List (String × Retrieved)) (st2 : FSState),
      diskawareDownloadLoop download_root_dir n_workers force_redownload st pairs =
        .ok (res, st2) → ∀ p ∈ res, isDownloadedB p.2 = true
  | [], st, res, st2, h => by
      simp only [diskawareDownloadLoop, Except.ok.injEq, Prod.mk.injEq] at h
      obtain ⟨hres, _⟩ := h
      subst hres
      intro p hp
      exact absurd hp (List.not_mem_nil p)
  | (curr_shortname, s3_files_list) :: rest, st, res, st2, h => by
      simp only [diskawareDownloadLoop] at h
      cases hw : download_files_s3_wrapper st s3_files_list
          (joinP download_root_dir curr_shortname) n_workers force_redownload with
      | error m =>
          rw [hw] at h
          exact absurd h (by simp)
      | ok r =>
          obtain ⟨dls, st1⟩ := r
          rw [hw] at h
          cases dls with
          | none => exact absurd h (by simp)
          | some downloaded_files =>
              dsimp only [] at h
              cases hrec : diskawareDownloadLoop download_root_dir n_workers
                  force_redownload st1 rest with
              | error m =>
                  rw [hrec] at h
                  exact absurd h (by simp)
              | ok r2 =>
                  obtain ⟨pairs2, st3⟩ := r2
                  rw [hrec] at h
                  simp only [Except.ok.injEq, Prod.mk.injEq] at h
                  obtain ⟨hres, _⟩ := h
                  subst hres
                  intro p hp
                  rcases List.mem_cons.mp hp with rfl | hp2
                  · rfl
                  · exact diskawareDownloadLoop_all download_root_dir n_workers
                      force_redownload rest st1 pairs2 st3 hrec p hp2

/-- Every value produced by the remote-open branch is tagged `opened`. -/
lemma diskawareOpenLoop_all (sopen : String → String) :
    ∀ (pairs : List (String × List String)), ∀ p ∈ diskawareOpenLoop sopen pairs,
      isDownloadedB p.2 = false
  | [] => by
      intro p hp
      exact absurd hp (List.not_mem_nil p)
  | (curr_shortname, s3_files_list) :: rest => by
      intro p hp
      simp only [diskawareOpenLoop] at hp
      rcases List.mem_cons.mp hp with rfl | hp2
      · rfl
      · exact diskawareOpenLoop_all sopen rest p hp2

/-- C7: the dispatcher's decision is global.  Given the computed aggregate size
of missing candidates and the probed free space, if the aggregate is within
`clampFrac max_avail_frac` of free space then every returned dataset value is a
download, otherwise every returned value is a remote open: the result of one
call is never mixed. -/
theorem C7_global_decision (st : FSState) (srv : Int → CMRResponse) (fuel : Nat) (b0 : Int)
    (ShortNames : List String) (snapshot_interval : Option String) (SingleDay_flag : Bool)
    (StartDateD : Int) (download_root_dir : String) (max_avail_frac : ℚ) (n_workers : Nat)
    (force_redownload : Bool) (sizeOf : String → ℚ) (existsDir : String → Bool)
    (freeSpace : String → ℚ) (probeFuel : Nat) (sopen : String → String)
    (pairs : List (String × List String)) (sizes_sum : ℚ) (st1 : FSState) (avail : ℚ)
    (res : List (String × Retrieved)) (st2 : FSState)
    (hsz : diskawareSizingLoop srv fuel b0 SingleDay_flag StartDateD
        (snapshotIntervalDefault snapshot_interval ShortNames) download_root_dir sizeOf st
        ShortNames = .ok (pairs, sizes_sum, st1))
    (hpb : diskProbe existsDir freeSpace probeFuel download_root_dir = some avail)
    (hav : 0 < avail)
    (hrun : ecco_podaac_s3_get_diskaware st srv fuel b0 ShortNames snapshot_interval
        SingleDay_flag StartDateD download_root_dir max_avail_frac n_workers
        force_redownload sizeOf existsDir freeSpace probeFuel sopen = .ok (res, st2)) :
    (sizes_sum ≤ clampFrac max_avail_frac * avail →
      ∀ p ∈ res, isDownloadedB p.2 = true) ∧
    (clampFrac max_avail_frac * avail < sizes_sum →
      ∀ p ∈ res, isDownloadedB p.2 = false) ∧
    ((∀ p ∈ res, isDownloadedB p.2 = true) ∨ (∀ p ∈ res, isDownloadedB p.2 = false)) := by
  unfold ecco_podaac_s3_get_diskaware at hrun
  dsimp only [] at hrun
  rw [hsz] at hrun
  dsimp only [] at hrun
  rw [hpb] at hrun
  dsimp only [] at hrun
  have hiff : sizes_sum / avail ≤ clampFrac max_avail_frac ↔
      sizes_sum ≤ clampFrac max_avail_frac * avail := div_le_iff₀ hav
  have hdl : sizes_sum ≤ clampFrac max_avail_frac * avail →
      ∀ p ∈ res, isDownloadedB p.2 = true := by
    intro hle
    rw [if_pos (hiff.mpr hle)] at hrun
    exact diskawareDownloadLoop_all download_root_dir n_workers force_redownload pairs st1
      res st2 hrun
  have hop : clampFrac max_avail_frac * avail < sizes_sum →
      ∀ p ∈ res, isDownloadedB p.2 = false := by
    intro hgt
    have hneg : ¬(sizes_sum / avail ≤ clampFrac max_avail_frac) := by
      intro hc
      exact absurd (hiff.mp hc) (not_le.mpr hgt)
    rw [if_neg hneg] at hrun
    simp only [Except.ok.injEq, Prod.mk.injEq] at hrun
    obtain ⟨hres, _⟩ := hrun
    subst hres
    exact diskawareOpenLoop_all sopen pairs
  refine ⟨hdl, hop, ?_⟩
  rcases le_or_lt sizes_sum (clampFrac max_avail_frac * avail) with hle | hgt
  · exact Or.inl (hdl hle)
  · exact Or.inr (hop hgt)

/-- Witness catalog for C7: one dataset with one 40-or-60 GB candidate. -/
def srvC7 : Int → CMRResponse := fun _ =>
  .feed [⟨0, 0, [⟨"direct download access via S3", "s3://b/data.nc"⟩]⟩]

/-- Witness for C7 at concrete numbers: with 100 free and `max_avail_frac=1/2`,
a 40-unit candidate set is downloaded and a 60-unit candidate set is opened
remotely, for every dataset in the call. -/
theorem C7_global_decision_witness :
    (∀ p ∈ ([("ECCO_VAR", Retrieved.downloaded (.scalar "root/ECCO_VAR/data.nc"))] :
        List (String × Retrieved)), isDownloadedB p.2 = true) ∧
    (∀ p ∈ ([("ECCO_VAR", Retrieved.opened (.scalar "s3://b/data.nc"))] :
        List (String × Retrieved)), isDownloadedB p.2 = false) := by
  have hpbW : diskProbe (fun _ => true) (fun _ => 100) 1 "root" = some 100 := rfl
  have hszA : diskawareSizingLoop srvC7 1 0 false 0
      (snapshotIntervalDefault (some "monthly") ["ECCO_VAR"]) "root" (fun _ => 40)
      ⟨[], []⟩ ["ECCO_VAR"] =
      .ok ([("ECCO_VAR", ["s3://b/data.nc"])], (0 + 40) + 0, ⟨["root/ECCO_VAR"], []⟩) := rfl
  have hcondA : ((0 : ℚ) + 40 + 0) / 100 ≤ clampFrac (1 / 2) := by
    norm_num [clampFrac, min_def, max_def]
  have hrunA : ecco_podaac_s3_get_diskaware ⟨[], []⟩ srvC7 1 0 ["ECCO_VAR"]
      (some "monthly") false 0 "root" (1 / 2) 6 false (fun _ => 40) (fun _ => true)
      (fun _ => 100) 1 (fun s => s) =
      .ok ([("ECCO_VAR", .downloaded (.scalar "root/ECCO_VAR/data.nc"))],
        ⟨["root/ECCO_VAR"], ["root/ECCO_VAR/data.nc"]⟩) := by
    unfold ecco_podaac_s3_get_diskaware
    dsimp only []
    rw [hszA]
    dsimp only []
    rw [hpbW]
    dsimp only []
    rw [if_pos hcondA]
    rfl
  have hszB : diskawareSizingLoop srvC7 1 0 false 0
      (snapshotIntervalDefault (some "monthly") ["ECCO_VAR"]) "root" (fun _ => 60)
      ⟨[], []⟩ ["ECCO_VAR"] =
      .ok ([("ECCO_VAR", ["s3://b/data.nc"])], (0 + 60) + 0, ⟨["root/ECCO_VAR"], []⟩) := rfl
  have hcondB : ¬(((0 : ℚ) + 60 + 0) / 100 ≤ clampFrac (1 / 2)) := by
    norm_num [clampFrac, min_def, max_def]
  have hrunB : ecco_podaac_s3_get_diskaware ⟨[], []⟩ srvC7 1 0 ["ECCO_VAR"]
      (some "monthly") false 0 "root" (1 / 2) 6 false (fun _ => 60) (fun _ => true)
      (fun _ => 100) 1 (fun s => s) =
      .ok ([("ECCO_VAR", .opened (.scalar "s3://b/data.nc"))],
        ⟨["root/ECCO_VAR"], []⟩) := by
    unfold ecco_podaac_s3_get_diskaware
    dsimp only []
    rw [hszB]
    dsimp only []
    rw [hpbW]
    dsimp only []
    rw [if_neg hcondB]
    rfl
  constructor
  · exact (C7_global_decision ⟨[], []⟩ srvC7 1 0 ["ECCO_VAR"] (some "monthly") false 0
      "root" (1 / 2) 6 false (fun _ => 40) (fun _ => true) (fun _ => 100) 1 (fun s => s)
      [("ECCO_VAR", ["s3://b/data.nc"])] ((0 + 40) + 0) ⟨["root/ECCO_VAR"], []⟩ 100
      [("ECCO_VAR", .downloaded (.scalar "root/ECCO_VAR/data.nc"))]
      ⟨["root/ECCO_VAR"], ["root/ECCO_VAR/data.nc"]⟩ hszA hpbW (by norm_num) hrunA).1
      (by rw [div_le_iff₀ (by norm_num : (0:ℚ) < 100)] at hcondA; exact hcondA)
  · exact (C7_global_decision ⟨[], []⟩ srvC7 1 0 ["ECCO_VAR"] (some "monthly") false 0
      "root" (1 / 2) 6 false (fun _ => 60) (fun _ => true) (fun _ => 100) 1 (fun s => s)
      [("ECCO_VAR", ["s3://b/data.nc"])] ((0 + 60) + 0) ⟨["root/ECCO_VAR"], []⟩ 100
      [("ECCO_VAR", .opened (.scalar "s3://b/data.nc"))] ⟨["root/ECCO_VAR"], []⟩
      hszB hpbW (by norm_num) hrunB).2.1
      (by rw [div_le_iff₀ (by norm_num : (0:ℚ) < 100)] at hcondB; exact not_le.mp hcondB)
